import Mathlib

/-!
Shallow embedding of the `k8s_gateway` CoreDNS plugin (files `kubernetes.go`
and the gateway plugin file) in Lean 4, together with theorems settling the
specification claims about the resolution pipeline.

Go strings are DNS names and IP addresses, which are ASCII throughout, so we
embed a Go string as a list of characters (`Str`); Go byte indexing and
character indexing coincide on ASCII data.  Go maps `map[string][]string` are
embedded as association lists wrapped in `Option`, where `none` is Go's nil
map; reading a key that is absent (or reading from a nil map) yields the
empty list, exactly as a Go map read yields the zero value.
-/

/-- A Go string, embedded as its list of characters. -/
abbrev Str := List Char

/-- Convenience conversion from a Lean string literal to `Str`. -/
def str (s : String) : Str := s.data

/-- Go `strings.Split(s, sep)` for a one-character separator `sep`.
Mirrors Go semantics: splitting the empty string yields `[""]`, never the
empty list. -/
def goSplitChar (c : Char) : Str → List Str
  | [] => [[]]
  | x :: xs =>
    if x = c then [] :: goSplitChar c xs
    else
      match goSplitChar c xs with
      | r :: rs => (x :: r) :: rs
      | [] => [[x]]

/-- Go `strings.Join(parts, sep)` for a one-character separator. -/
def goJoinChar (c : Char) : List Str → Str
  | [] => []
  | [x] => x
  | x :: y :: xs => x ++ c :: goJoinChar c (y :: xs)

/-- Go `strings.ToLower` (ASCII case folding suffices for DNS names). -/
def goToLower (s : Str) : Str := s.map Char.toLower

/-- Go `strings.HasSuffix`. -/
def goHasSuffix (s suffix : Str) : Bool := suffix.isSuffixOf s

/-- Go `strings.TrimSuffix`. -/
def goTrimSuffix (s suffix : Str) : Str :=
  if goHasSuffix s suffix then s.take (s.length - suffix.length) else s

/-- Go `strings.ReplaceAll(s, " ", "")`: removes every space. -/
def goRemoveSpaces (s : Str) : Str := s.filter (fun c => ¬ c = ' ')

/-- From the source (`stripClosingDot`): strips the closing dot unless the
string has length at most one. -/
def stripClosingDot (s : Str) : Str :=
  if s.length > 1 then goTrimSuffix s (str ".") else s

/-- From the source (`stripDomain`): strips the zone suffix from an FQDN
(`qname[:len(qname)-len(zone)]`) and then the closing dot. -/
def stripDomain (qname zone : Str) : Str :=
  stripClosingDot (qname.take (qname.length - zone.length))

/-- From the source (`Gateway.getQueryIndexKeys`): the index keys for one
query name. -/
def getQueryIndexKeys (qName zone : Str) : List Str :=
  let zonelessQuery := stripDomain qName zone
  let strippedQName := stripClosingDot qName
  if zonelessQuery.length ≠ 0 ∧ zonelessQuery ≠ strippedQName then
    [strippedQName, zonelessQuery]
  else
    [strippedQName]

/-- From the source (`Gateway.toWildcardQName`): replaces the first label of
the zoneless query with `*` and re-appends the zone.  The source guards on
`len(parts) == 0`, which we reproduce verbatim; note that Go's
`strings.Split` never returns an empty slice for a non-empty separator, so
that branch is dead code. -/
def toWildcardQName (qName zone : Str) : Str :=
  let zonelessQuery := stripDomain qName zone
  let parts := goSplitChar '.' zonelessQuery
  match parts with
  | [] => []
  | _ :: rest => goJoinChar '.' ((str "*" :: rest) ++ [zone])

/-- From the source (`Gateway.getQueryIndexKeySets`): the ordered list of
index key sets for a query, most specific first. -/
def getQueryIndexKeySets (qName zone : Str) : List (List Str) :=
  let specificIndexKeys := getQueryIndexKeys qName zone
  let wildcardQName := toWildcardQName qName zone
  if wildcardQName = [] then
    [specificIndexKeys]
  else
    [specificIndexKeys, getQueryIndexKeys wildcardQName zone]

/-- From the source (`split255`, borrowed there from CoreDNS): the slicing
loop.  `p` and `i` are the two byte cursors; the body appends `s[p:i]` while
`i ≤ len(s)` and finishes with `s[p:]`.  Generic in the element type since
the Go code never inspects the bytes. -/
def split255Loop (s : List α) (p i : Nat) : List (List α) :=
  if i > s.length then [s.drop p]
  else (s.drop p).take (i - p) :: split255Loop s (p + 255) (i + 255)
termination_by s.length + 256 - i
decreasing_by
  simp_wf
  omega

/-- From the source (`split255`): splits a byte string into 255-byte chunks. -/
def split255 (s : List α) : List (List α) :=
  if s.length < 255 then [s] else split255Loop s 0 255

/-- An inhabited Go `map[string][]string` value: an association list from the
three record-type keys to address lists.  Keys are Lean `String`s since the
source only ever uses the literals `"A"`, `"AAAA"` and `"TXT"`. -/
abbrev AddrEntries := List (String × List Str)

/-- A Go `map[string][]string` variable, which may be nil (`none`). -/
abbrev AddrMap := Option AddrEntries

/-- Key lookup in an association list (Go map indexing, presence-aware). -/
def lookupKey : AddrEntries → String → Option (List Str)
  | [], _ => none
  | (k2, v) :: rest, k => if k2 = k then some v else lookupKey rest k

/-- Go map read `m[k]`: reading a nil map or an absent key yields the zero
value, a nil slice, which we identify with the empty list. -/
def mGet (m : AddrMap) (k : String) : List Str :=
  match m with
  | none => []
  | some l => (lookupKey l k).getD []

/-- Go map write `m[k] = v` on a non-nil map: replace or insert. -/
def setKey : AddrEntries → String → List Str → AddrEntries
  | [], k, v => [(k, v)]
  | (k2, v2) :: rest, k, v =>
    if k2 = k then (k, v) :: rest else (k2, v2) :: setKey rest k v

/-- The Go idiom `if m[k] == nil { m[k] = make(...) }; m[k] = append(m[k], x)`:
append one value to the (possibly absent) list at `k`. -/
def appendKey (m : AddrEntries) (k : String) (v : Str) : AddrEntries :=
  setKey m k ((lookupKey m k).getD [] ++ [v])

/-- From the source (`appenddnsResults`): makes the result map if nil, makes
each of the three lists if nil, and appends the fetched lists.  Always
returns a non-nil map with all three keys set. -/
def appenddnsResults (result fetchedResults : AddrMap) : AddrEntries :=
  let r := result.getD []
  let r := setKey r "A" ((lookupKey r "A").getD [] ++ mGet fetchedResults "A")
  let r := setKey r "AAAA" ((lookupKey r "AAAA").getD [] ++ mGet fetchedResults "AAAA")
  setKey r "TXT" ((lookupKey r "TXT").getD [] ++ mGet fetchedResults "TXT")

/-- The type of the per-resource-kind `lookup` closures
(`lookupFunc` in the source). -/
abbrev LookupFunc := List Str → AddrMap

/-- From the source (`noop`): the default lookup installed for resource kinds
that are not enabled; its named nil result is returned unchanged. -/
def noop : LookupFunc := fun _ => none

/-- From the source (`Gateway.getMatchingAddresses`), the normalization of
one looked-up bundle: make the map if nil, then make each of the three lists
if nil. -/
def normalizeBundle (m : AddrMap) : AddrEntries :=
  let addrs := m.getD []
  let addrs := if lookupKey addrs "A" = none then setKey addrs "A" [] else addrs
  let addrs := if lookupKey addrs "AAAA" = none then setKey addrs "AAAA" [] else addrs
  if lookupKey addrs "TXT" = none then setKey addrs "TXT" [] else addrs

/-- From the source (`Gateway.getMatchingAddresses`): the three emptiness
tests that decide whether a normalized bundle is returned. -/
def bundleNonEmpty (addrs : AddrEntries) : Bool :=
  ¬ (lookupKey addrs "A").getD [] = [] ∨ ¬ (lookupKey addrs "AAAA").getD [] = [] ∨
    ¬ (lookupKey addrs "TXT").getD [] = []

/-- From the source (`Gateway.getMatchingAddresses`), inner loop: probe the
registry's resource kinds in order for one key set, returning the first
normalized bundle with a non-empty list. -/
def probeKinds (indexKeys : List Str) : List LookupFunc → Option AddrEntries
  | [] => none
  | resource :: rest =>
    let addrs := normalizeBundle (resource indexKeys)
    if bundleNonEmpty addrs then some addrs else probeKinds indexKeys rest

/-- From the source (`Gateway.getMatchingAddresses`): iterate the key sets in
order, probing the resource kinds for each; the first non-empty bundle is
returned immediately and nothing is merged; nil is returned when every probe
comes back empty. -/
def getMatchingAddresses (resources : List LookupFunc) : List (List Str) → AddrMap
  | [] => none
  | indexKeys :: restSets =>
    match probeKinds indexKeys resources with
    | some addrs => some addrs
    | none => getMatchingAddresses resources restSets

/-- The probe sequence the specification describes: for each key set in
order, for each resource kind in registry order, the normalized result of
that kind's lookup.  This definition follows the specification's words and
is compared with `getMatchingAddresses` from the source. -/
def specProbeSequence (resources : List LookupFunc) (keySets : List (List Str)) :
    List AddrEntries :=
  keySets.flatMap fun indexKeys => resources.map fun r => normalizeBundle (r indexKeys)

/-- A parsed IP address as the source observes it through `netip.ParseAddr`:
its family flags (`Is4`, `Is6`) and its canonical string (`String()`). -/
structure ParsedAddr where
  is4 : Bool
  is6 : Bool
  canonical : Str
deriving DecidableEq

/-- The system address parser `netip.ParseAddr` (external library), passed as
a parameter: `none` models a parse error. -/
abbrev ParseAddr := Str → Option ParsedAddr

/-- The system resolver `net.LookupIP` (external library), passed as a
parameter: `none` models a resolution error, `some ips` the textual forms of
the resolved addresses. -/
abbrev LookupIP := Str → Option (List Str)

/-- The repeated Go fragment that classifies one parsed address: append its
canonical string to `"A"` when `Is4`, and to `"AAAA"` when `Is6`. -/
def classifyAppend (m : AddrEntries) (addr : ParsedAddr) : AddrEntries :=
  let m := if addr.is4 then appendKey m "A" addr.canonical else m
  if addr.is6 then appendKey m "AAAA" addr.canonical else m

/-- Parse-and-classify for a list of textual addresses; a parse error skips
the individual value (`continue` in the source). -/
def classifyAll (parseAddr : ParseAddr) (m : AddrEntries) (ips : List Str) : AddrEntries :=
  ips.foldl (fun m ip =>
    match parseAddr ip with
    | none => m
    | some addr => classifyAppend m addr) m

/-- One `status.loadBalancer.ingress[]` entry as used by the source: its
`Hostname` and `IP` string fields (empty string means unset, as in Go). -/
structure LBIngress where
  hostname : Str
  ip : Str
deriving DecidableEq

/-- From the source (`fetchServiceLoadBalancerIPs`): for each load-balancer
ingress entry, resolve `Hostname` via the system resolver (errors skip the
entry) and classify every resolved address, or classify `IP` directly. -/
def fetchServiceLoadBalancerIPs (parseAddr : ParseAddr) (lookupIP : LookupIP)
    (ingresses : List LBIngress) : AddrMap :=
  some (ingresses.foldl (fun results address =>
    if address.hostname ≠ [] then
      match lookupIP address.hostname with
      | none => results
      | some ips => classifyAll parseAddr results ips
    else if address.ip ≠ [] then
      match parseAddr address.ip with
      | none => results
      | some addr => classifyAppend results addr
    else results) [])

/-- From the source (`fetchIngressLoadBalancerIPs`): textually the same loop
as `fetchServiceLoadBalancerIPs`, duplicated in the source for the Ingress
status type. -/
def fetchIngressLoadBalancerIPs (parseAddr : ParseAddr) (lookupIP : LookupIP)
    (ingresses : List LBIngress) : AddrMap :=
  some (ingresses.foldl (fun results address =>
    if address.hostname ≠ [] then
      match lookupIP address.hostname with
      | none => results
      | some ips => classifyAll parseAddr results ips
    else if address.ip ≠ [] then
      match parseAddr address.ip with
      | none => results
      | some addr => classifyAppend results addr
    else results) [])

/-- A `core.Service` object, restricted to the fields the source reads. -/
structure KService where
  name : Str
  nspace : Str
  svcType : Str
  annotations : List (Str × Str)
  externalIPs : List Str
  lbIngress : List LBIngress
deriving DecidableEq

/-- From the source (`lookupServiceIndex`), the loop over matched Service
objects.  The first Service with non-empty `spec.externalIPs` classifies
those IPs into the accumulated result and returns it immediately (`return`
in the source), ignoring its status field and every later object; a Service
without external IPs merges its load-balancer status addresses and the loop
continues. -/
def processServices (parseAddr : ParseAddr) (lookupIP : LookupIP)
    (result : AddrEntries) : List KService → AddrMap
  | [] => some result
  | service :: rest =>
    if service.externalIPs ≠ [] then
      some (classifyAll parseAddr result service.externalIPs)
    else
      processServices parseAddr lookupIP
        (appenddnsResults (some result)
          (fetchServiceLoadBalancerIPs parseAddr lookupIP service.lbIngress)) rest

/-- From the source (`lookupServiceIndex`): the Service lookup closure.  The
result map is made eagerly; matched objects are gathered from the hostname
index with lowercased keys and then processed by `processServices`. -/
def lookupServiceIndex (parseAddr : ParseAddr) (lookupIP : LookupIP)
    (byIndex : Str → List KService) : LookupFunc := fun indexKeys =>
  let objs := indexKeys.flatMap fun key => byIndex (goToLower key)
  processServices parseAddr lookupIP [] objs

/-- A `networking.Ingress` object, restricted to the fields the source
reads: the optional `spec.ingressClassName` and the load-balancer status. -/
structure KIngress where
  ingressClassName : Option Str
  lbIngress : List LBIngress
deriving DecidableEq

/-- From the source (`lookupIngressIndex`), the loop over matched Ingress
objects.  With a non-empty class filter the source dereferences
`*ingress.Spec.IngressClassName` before the filter test; on an object whose
class is unset that dereference is a nil-pointer panic, modeled as
`Except.error`. -/
def processIngresses (parseAddr : ParseAddr) (lookupIP : LookupIP)
    (ingclasses : List Str) (result : AddrMap) :
    List KIngress → Except Unit AddrMap
  | [] => .ok result
  | ingress :: rest =>
    if ingclasses ≠ [] then
      match ingress.ingressClassName with
      | none => .error ()
      | some c =>
        if ¬ ingclasses.contains c then
          processIngresses parseAddr lookupIP ingclasses result rest
        else
          processIngresses parseAddr lookupIP ingclasses
            (some (appenddnsResults result
              (fetchIngressLoadBalancerIPs parseAddr lookupIP ingress.lbIngress))) rest
    else
      processIngresses parseAddr lookupIP ingclasses
        (some (appenddnsResults result
          (fetchIngressLoadBalancerIPs parseAddr lookupIP ingress.lbIngress))) rest

/-- From the source (`lookupIngressIndex`): the Ingress lookup closure.  Its
named result starts as a nil map; matched objects are gathered from the
hostname index with lowercased keys and then processed by
`processIngresses` under the configured ingress-class filter. -/
def lookupIngressIndex (parseAddr : ParseAddr) (lookupIP : LookupIP)
    (byIndex : Str → List KIngress) (ingclasses : List Str) (indexKeys : List Str) :
    Except Unit AddrMap :=
  let objs := indexKeys.flatMap fun key => byIndex (goToLower key)
  processIngresses parseAddr lookupIP ingclasses none objs

/-- One element of a route's `spec.parentRefs`: the optional namespace
override and the gateway name. -/
structure ParentRef where
  nspace : Option Str
  name : Str
deriving DecidableEq

/-- From the source (`lookupGateways`): the gateway index keys computed for a
route's parent references.  The source mutates the single variable `ns`
(initially the route's namespace) inside the loop, so a namespace override
persists into the keys of all later references. -/
def gatewayKeys (routeNs : Str) : List ParentRef → List Str
  | [] => []
  | gwRef :: rest =>
    let ns := match gwRef.nspace with
      | some v => v
      | none => routeNs
    (ns ++ str "/" ++ gwRef.name) :: gatewayKeys ns rest

/-- From the source (`isdns1123Hostname`): membership in the RFC 1123
subdomain grammar `[a-z0-9]([-a-z0-9]*[a-z0-9])?(\.[a-z0-9]([-a-z0-9]*[a-z0-9])?)*`,
expressed label-wise: every dot-separated label is non-empty, consists of
`[-a-z0-9]` characters, and starts and ends with `[a-z0-9]`. -/
def isLowerAlnum (c : Char) : Bool :=
  ('a' ≤ c ∧ c ≤ 'z') ∨ ('0' ≤ c ∧ c ≤ '9')

/-- A single label of the RFC 1123 subdomain grammar,
`[a-z0-9]([-a-z0-9]*[a-z0-9])?`. -/
def dns1123Label (s : Str) : Bool :=
  match s with
  | [] => false
  | c :: rest =>
    isLowerAlnum c && rest.all (fun d => isLowerAlnum d || d = '-') &&
      isLowerAlnum ((c :: rest).getLast (by simp))

/-- From the source (`isdns1123Hostname`): the anchored subdomain regular
expression, as a decidable label-wise predicate. -/
def isdns1123Hostname (value : Str) : Bool :=
  (goSplitChar '.' value).all dns1123Label

/-- Modelled from the spec: `dns.IsDomainName` of the external miekg/dns
library (the spec's "syntactically valid DNS name"), whose length
constraints are a total name length of at most 255 and labels of at most 63
bytes. -/
def isDomainName (s : Str) : Bool :=
  s.length ≤ 255 && (goSplitChar '.' s).all (fun l => l.length ≤ 63)

/-- From the source (`checkDomainValid`): a domain is valid when
`dns.IsDomainName` accepts it and it conforms to RFC 1123. -/
def checkDomainValid (domain : Str) : Bool :=
  if isDomainName domain then isdns1123Hostname domain else false

/-- From the source (`checkServiceAnnotation`): look up an annotation on a
Service and lowercase its value. -/
def checkServiceAnnot (annotKey : Str) (service : KService) : Option Str :=
  (service.annotations.lookup annotKey).map goToLower

/-- From the source (`splitHostnameAnnotation`): comma-split the annotation
after removing every space. -/
def splitHostnameAnnot (annot : Str) : List Str :=
  goSplitChar ',' (goRemoveSpaces annot)

/-- The annotation key `coredns.io/hostname`. -/
def hostnameAnnotKey : Str := str "coredns.io/hostname"

/-- The annotation key `external-dns.alpha.kubernetes.io/hostname`. -/
def externalDnsHostnameAnnotKey : Str :=
  str "external-dns.alpha.kubernetes.io/hostname"

/-- From the source (`serviceHostnameIndexFunc`): the hostname index keys of
a Service.  Non-LoadBalancer Services index nothing.  A present
`coredns.io/hostname` annotation gives its lowercased value when valid and
nothing otherwise; only when it is absent does the source consult the
external-dns annotation (each comma-separated entry validated
individually), and only when both are absent does it fall back to
`"<name>.<namespace>"`. -/
def serviceHostnameIndexFunc (service : KService) : List Str :=
  if service.svcType ≠ str "LoadBalancer" then []
  else
    let hostname := service.name ++ str "." ++ service.nspace
    match checkServiceAnnot hostnameAnnotKey service with
    | some annot =>
      if checkDomainValid annot then [annot] else []
    | none =>
      match checkServiceAnnot externalDnsHostnameAnnotKey service with
      | some annot =>
        (splitHostnameAnnot annot).filter checkDomainValid
      | none => [hostname]

/-- The query types the responder's switch distinguishes. -/
inductive QType
  | a
  | aaaa
  | txt
  | soa
  | ns
  | other
deriving DecidableEq

/-- A DNS resource record, restricted to the fields the plugin sets.  The
SOA constructor carries the fields the specification lists for the zone's
SOA record. -/
inductive RR
  | a (name : Str) (ttl : Nat) (ip : Str)
  | aaaa (name : Str) (ttl : Nat) (ip : Str)
  | txt (name : Str) (ttl : Nat) (chunks : List Str)
  | soa (zone : Str) (mname : Str) (hostmaster : Str) (ttl serial refresh retry expire minimum : Nat)
  | nsRec (zone : Str) (target : Str) (ttl : Nat)
deriving DecidableEq

/-- Setting `rr.Header().Ttl`, as the NS branch does on the external
self-address records. -/
def setTTL (ttl : Nat) : RR → RR
  | .a n _ ip => .a n ttl ip
  | .aaaa n _ ip => .aaaa n ttl ip
  | .txt n _ c => .txt n ttl c
  | .soa z m h _ se re rt ex mi => .soa z m h ttl se re rt ex mi
  | .nsRec z t _ => .nsRec z t ttl

/-- The parts of the reply message the plugin fills in. -/
structure Msg where
  rcode : Nat
  answer : List RR
  ns : List RR
  extra : List RR
  authoritative : Bool
deriving DecidableEq

/-- The observable outcome of one `ServeDNS` call: delegation to the next
handler, the SERVFAIL error return, the sub-apex responder (whose body lives
outside the modeled file), or a written reply. -/
inductive ServeOutcome
  | nextHandler
  | servfail
  | subApex
  | reply (m : Msg)
deriving DecidableEq

/-- Rcode constants from the dns library: success, server failure, name
error. -/
def rcodeSuccess : Nat := 0

/-- Rcode SERVFAIL. -/
def rcodeServerFailure : Nat := 2

/-- Rcode NXDOMAIN. -/
def rcodeNameError : Nat := 3

/-- Modelled from the spec: `dns.IsSubDomain`/zone matching of the external
libraries — `child` is in the zone `parent` when `parent` is the root or a
case-insensitive suffix of `child` at a label boundary. -/
def isSubDomainB (parent child : Str) : Bool :=
  let p := goToLower parent
  let c := goToLower child
  p = str "." ∨ c = p ∨ goHasSuffix c ('.' :: p)

/-- Modelled from the spec: CoreDNS `plugin.Zones(...).Matches(qname)` —
the longest configured zone that `qname` falls under, or the empty string. -/
def zonesMatches (zones : List Str) (qname : Str) : Str :=
  zones.foldl (fun zone zname =>
    if isSubDomainB zname qname ∧ zone.length < zname.length then zname else zone) []

/-- From the source (`ServeDNS`, zone loop): walk the configured zones in
order; an exact match makes the query a root-zone (apex) query and stops the
loop; a name under `<apex>.<zone>` is diverted to the sub-apex responder
(`none`); otherwise the loop continues. -/
def rootOrSubApex (apex qname : Str) : List Str → Option Bool
  | [] => some false
  | z :: zs =>
    if qname = z then some true
    else if isSubDomainB (apex ++ str "." ++ z) qname then none
    else rootOrSubApex apex qname zs

/-- The de-duplication in the record builders: keep the first occurrence of
each value, in input order (the Go code tests and inserts into a `dup`
set as it appends). -/
def dedupFirst (seen : List Str) : List Str → List Str
  | [] => []
  | x :: xs =>
    if seen.contains x then dedupFirst seen xs
    else x :: dedupFirst (x :: seen) xs

/-- From the source (`Gateway.A`): A records for the de-duplicated results. -/
def gwA (ttlLow : Nat) (name : Str) (results : List Str) : List RR :=
  (dedupFirst [] results).map fun result => RR.a name ttlLow result

/-- From the source (`Gateway.AAAA`): AAAA records for the de-duplicated
results. -/
def gwAAAA (ttlLow : Nat) (name : Str) (results : List Str) : List RR :=
  (dedupFirst [] results).map fun result => RR.aaaa name ttlLow result

/-- From the source (`Gateway.TXT`): TXT records for the de-duplicated
results, each value split into 255-byte chunks. -/
def gwTXT (ttlLow : Nat) (name : Str) (results : List Str) : List RR :=
  (dedupFirst [] results).map fun result => RR.txt name ttlLow (split255 result)

/-- The plugin's runtime configuration: the fields of the `Gateway` struct
that `ServeDNS` reads, with the external collaborators (`Fall.Through`,
`ExternalAddrFunc`, the apex responder's NS set) as values. -/
structure GatewayCfg where
  zones : List Str
  resources : List LookupFunc
  apex : Str
  hostmaster : Str
  ttlLow : Nat
  ttlSOA : Nat
  hasSynced : Bool
  fallThrough : Str → Bool
  nameservers : List RR
  externalAddr : List RR

/-- Modelled from the spec: the zone SOA record built by the (unprovided)
apex responder file — MNAME `<apex>.<zone>`, the configured hostmaster,
serial `1499347823`, refresh `7200`, retry `1800`, expire `86400`, minimum
`5`, at the SOA TTL. -/
def mkSOA (gw : GatewayCfg) (zone : Str) : RR :=
  RR.soa zone (gw.apex ++ str "." ++ zone) gw.hostmaster gw.ttlSOA 1499347823 7200 1800 86400 5

/-- From the source (`ServeDNS`, the query-type switch): build the reply
message from the query type, the bundle, and apex status.  `SetReply`
initializes the rcode to success; the A/AAAA/TXT branches overwrite it with
NXDOMAIN for an empty list off-apex, the AAAA branch restoring success when
A records exist (RFC 4074 §3); the Authoritative flag is always set. -/
def buildMsg (gw : GatewayCfg) (qname : Str) (qtype : QType) (isRootZoneQuery : Bool)
    (addrs : AddrMap) (zone : Str) : Msg :=
  match qtype with
  | .a =>
    if mGet addrs "A" = [] then
      { rcode := if ¬ isRootZoneQuery then rcodeNameError else rcodeSuccess,
        answer := [], ns := [mkSOA gw zone], extra := [], authoritative := true }
    else
      { rcode := rcodeSuccess, answer := gwA gw.ttlLow qname (mGet addrs "A"),
        ns := [], extra := [], authoritative := true }
  | .aaaa =>
    if mGet addrs "AAAA" = [] then
      let rc := if ¬ isRootZoneQuery then rcodeNameError else rcodeSuccess
      let rc := if mGet addrs "A" ≠ [] then rcodeSuccess else rc
      { rcode := rc, answer := [], ns := [mkSOA gw zone], extra := [],
        authoritative := true }
    else
      { rcode := rcodeSuccess, answer := gwAAAA gw.ttlLow qname (mGet addrs "AAAA"),
        ns := [], extra := [], authoritative := true }
  | .txt =>
    if mGet addrs "TXT" = [] then
      { rcode := if ¬ isRootZoneQuery then rcodeNameError else rcodeSuccess,
        answer := [], ns := [mkSOA gw zone], extra := [], authoritative := true }
    else
      { rcode := rcodeSuccess, answer := gwTXT gw.ttlLow qname (mGet addrs "TXT"),
        ns := [], extra := [], authoritative := true }
  | .soa =>
    { rcode := rcodeSuccess, answer := [mkSOA gw zone], ns := [], extra := [],
      authoritative := true }
  | .ns =>
    if isRootZoneQuery then
      { rcode := rcodeSuccess, answer := gw.nameservers, ns := [],
        extra := gw.externalAddr.map (setTTL gw.ttlSOA), authoritative := true }
    else
      { rcode := rcodeSuccess, answer := [], ns := [mkSOA gw zone], extra := [],
        authoritative := true }
  | .other =>
    { rcode := rcodeSuccess, answer := [], ns := [mkSOA gw zone], extra := [],
      authoritative := true }

/-- From the source (`Gateway.ServeDNS`): the full query pipeline.  `qname`
is the (lowercased, FQDN) query name as CoreDNS's `request.QName` returns
it.  No zone match delegates to the next handler; the zone keeps the case of
the original query by re-slicing `qname`; the sync gate fails the query with
SERVFAIL; sub-apex names divert to the sub-apex responder; an all-empty
bundle falls through when the fallthrough list covers the name; otherwise
the reply is built by the query-type switch. -/
def serveDNS (gw : GatewayCfg) (qname : Str) (qtype : QType) : ServeOutcome :=
  let zone := zonesMatches gw.zones qname
  if zone = [] then .nextHandler
  else
    let zone := qname.drop (qname.length - zone.length)
    let indexKeySets := getQueryIndexKeySets qname zone
    if ¬ gw.hasSynced then .servfail
    else
      match rootOrSubApex gw.apex qname gw.zones with
      | none => .subApex
      | some isRootZoneQuery =>
        let addrs := getMatchingAddresses gw.resources indexKeySets
        if mGet addrs "A" = [] ∧ mGet addrs "AAAA" = [] ∧ mGet addrs "TXT" = [] ∧
            gw.fallThrough qname then
          .nextHandler
        else
          .reply (buildMsg gw qname qtype isRootZoneQuery addrs zone)

/-- From the source (`KubeController.run` / `HasSynced`): the `hasSynced`
flag along the run sequence, as a function of `WaitForCacheSync`'s result.
The field starts at Go's zero value `false`; the failure branch assigns
`false`; the following statement assigns `true` unconditionally (there is no
early return), which is the value `HasSynced` reports from then on. -/
structure RunTrace where
  afterWaitCheck : Bool
  final : Bool
deriving DecidableEq

/-- The trace of `KubeController.run` for a given `WaitForCacheSync`
result. -/
def runHasSyncedTrace (waitForCacheSyncResult : Bool) : RunTrace :=
  let initial := false
  let afterWaitCheck := if ¬ waitForCacheSyncResult then false else initial
  { afterWaitCheck := afterWaitCheck, final := true }

/-- The slicing loop reassembles to the remaining suffix: concatenating its
chunks yields `s[p:]` whenever the cursors are in the loop's invariant
`i = p + 255`, `p ≤ len(s)`. -/
theorem split255Loop_flatten (s : List α) :
    ∀ p i, i = p + 255 → p ≤ s.length → (split255Loop s p i).flatten = s.drop p := by
  intro p i
  induction p, i using split255Loop.induct s with
  | case1 p i hgt =>
    intro h hp
    rw [split255Loop, if_pos hgt]
    simp
  | case2 p i hgt ih =>
    intro h hp
    rw [split255Loop, if_neg hgt]
    rw [List.flatten_cons, ih (by omega) (by omega)]
    have h255 : i - p = 255 := by omega
    rw [h255]
    have hdd : s.drop (p + 255) = (s.drop p).drop 255 := by
      rw [List.drop_drop]
    rw [hdd, List.take_append_drop]

/-- Every chunk the slicing loop emits has at most 255 bytes. -/
theorem split255Loop_chunk_le (s : List α) :
    ∀ p i, i = p + 255 → ∀ c ∈ split255Loop s p i, c.length ≤ 255 := by
  intro p i
  induction p, i using split255Loop.induct s with
  | case1 p i hgt =>
    intro h c hc
    rw [split255Loop, if_pos hgt] at hc
    simp only [List.mem_singleton] at hc
    subst hc
    rw [List.length_drop]
    omega
  | case2 p i hgt ih =>
    intro h c hc
    rw [split255Loop, if_neg hgt] at hc
    rcases List.mem_cons.mp hc with h1 | h2
    · subst h1
      calc ((s.drop p).take (i - p)).length ≤ i - p := List.length_take_le _ _
        _ ≤ 255 := by omega
    · exact ih (by omega) c h2

/-- The chunks of `split255` concatenate back to the input. -/
theorem split255_flatten_eq (s : List α) : (split255 s).flatten = s := by
  rw [split255]
  by_cases h : s.length < 255
  · rw [if_pos h]; simp
  · rw [if_neg h, split255Loop_flatten s 0 255 rfl (by omega), List.drop_zero]

set_option maxRecDepth 4000 in
/-- Concrete evaluation of `split255` at an input of exactly 255 bytes: the
result carries a trailing empty chunk. -/
theorem split255_replicate255 :
    split255 (List.replicate 255 true) = [List.replicate 255 true, []] := by
  have hlen : (List.replicate 255 (true : Bool)).length = 255 := List.length_replicate _ _
  rw [split255, if_neg (by rw [hlen]; omega), split255Loop, if_neg (by rw [hlen]; omega),
      split255Loop, if_pos (by rw [hlen]; omega)]
  simp [List.take_replicate, List.drop_replicate]

/-- C8 (amended): every chunk of `split255 s` is at most 255 bytes and the
chunks concatenate back to `s`; an input of fewer than 255 bytes is returned
as the single chunk `[s]`; but an input of exactly 255 bytes is returned as
`[s, ""]`, with a trailing empty chunk — not as a single chunk, and with an
empty chunk despite `s` being non-empty. -/
theorem c8_split255_chunks (s : List α) :
    (∀ c ∈ split255 s, c.length ≤ 255) ∧ (split255 s).flatten = s ∧
      (s.length < 255 → split255 s = [s]) ∧
      (s.length = 255 → split255 s = [s, []]) := by
  refine ⟨?_, split255_flatten_eq s, ?_, ?_⟩
  · intro c hc
    rw [split255] at hc
    by_cases h : s.length < 255
    · rw [if_pos h] at hc
      simp only [List.mem_singleton] at hc
      subst hc
      omega
    · rw [if_neg h] at hc
      exact split255Loop_chunk_le s 0 255 rfl c hc
  · intro h
    rw [split255, if_pos h]
  · intro h
    rw [split255, if_neg (by omega), split255Loop, if_neg (by omega),
        split255Loop, if_pos (by omega)]
    rw [List.drop_zero, Nat.sub_zero, ← h, List.take_length, Nat.zero_add, List.drop_length]

/-- C8 witness: the amended theorem applied to a concrete 255-byte string. -/
theorem c8_witness : split255 (List.replicate 255 true) = [List.replicate 255 true, []] :=
  (c8_split255_chunks (List.replicate 255 true)).2.2.2 (List.length_replicate _ _)

/-- C8 counterexample: for the non-empty 255-byte input, `split255` emits an
empty chunk and does not return a single chunk, refuting the claim that a
TXT value of exactly 255 bytes is returned as one 255-byte chunk with no
chunk empty. -/
theorem c8_counterexample :
    List.replicate 255 true ≠ [] ∧ [] ∈ split255 (List.replicate 255 true) ∧
      (split255 (List.replicate 255 true)).length = 2 := by
  rw [split255_replicate255]
  refine ⟨fun h => ?_, List.mem_cons_of_mem _ (List.mem_singleton.mpr rfl), rfl⟩
  have hlen := congrArg List.length h
  rw [List.length_replicate, List.length_nil] at hlen
  exact absurd hlen (by omega)

/-- C2: at the zone apex the zoneless query is empty, yet
`getQueryIndexKeySets` still returns a wildcard key set, because
`strings.Split` maps the empty zoneless name to one empty label and the
dead `len(parts) == 0` guard never fires: the computed wildcard name is
`*.example.com.`, contradicting the claim (and the spec) that the apex has
no wildcard set. -/
theorem c2_apex_wildcard_keyset :
    getQueryIndexKeySets (str "example.com.") (str "example.com.") =
      [[str "example.com"], [str "*.example.com", str "*"]] ∧
      toWildcardQName (str "example.com.") (str "example.com.") = str "*.example.com." := by
  constructor
  · decide
  · decide

/-- C1: the code contradicts the claim.  When `WaitForCacheSync` reports
failure, `run` assigns `hasSynced = false` but then falls through to the
unconditional `hasSynced = true` (there is no early return), so `HasSynced`
reports `true` — the plugin does not stay in the un-synced state.  The
claim's sync gate itself is real: while `HasSynced` is `false`, an in-zone
query is answered with SERVFAIL, as the third conjunct evaluates. -/
theorem c1_run_overwrites_sync_flag :
    (runHasSyncedTrace false).final = true ∧
      (runHasSyncedTrace false).afterWaitCheck = false ∧
      serveDNS
        { zones := [str "example.com."], resources := [noop], apex := str "dns1.kube-system",
          hostmaster := str "hostmaster", ttlLow := 60, ttlSOA := 60, hasSynced := false,
          fallThrough := fun _ => false, nameservers := [], externalAddr := [] }
        (str "svc.ns1.example.com.") QType.a = ServeOutcome.servfail := by
  refine ⟨rfl, rfl, ?_⟩
  decide

/-- C4: the code contradicts the claim.  `lookupGateways` mutates the
namespace variable in its loop, so the second parent reference — which has
no namespace override — is resolved against the first reference's override
`other`, not against the route's own namespace `default`. -/
theorem c4_parentref_namespace_leak :
    gatewayKeys (str "default")
        [{ nspace := some (str "other"), name := str "gw1" },
         { nspace := none, name := str "gw2" }] =
      [str "other/gw1", str "other/gw2"] ∧
      str "other/gw2" ≠ str "default/gw2" := by
  constructor
  · decide
  · decide

/-- C5: the code contradicts the claim.  With the non-empty ingress-class
filter `["nginx"]` configured, the lookup dereferences the unset
`spec.ingressClassName` of a matched Ingress and panics (modeled as
`Except.error`) instead of skipping the object. -/
theorem c5_nil_ingress_class_panic :
    lookupIngressIndex (fun _ => none) (fun _ => none)
        (fun _ => [{ ingressClassName := none, lbIngress := [] }])
        [str "nginx"] [str "x.example.com"] = .error () := rfl

/-- Looking up a key after `setKey` sees the new value at that key and the
old values elsewhere. -/
theorem lookupKey_setKey (l : AddrEntries) (k k1 : String) (v : List Str) :
    lookupKey (setKey l k v) k1 = if k1 = k then some v else lookupKey l k1 := by
  induction l with
  | nil =>
    by_cases h : k1 = k
    · subst h; simp [setKey, lookupKey]
    · have h2 : ¬(k = k1) := fun hx => h hx.symm
      simp [setKey, lookupKey, h, h2]
  | cons p rest ih =>
    obtain ⟨k2, v2⟩ := p
    simp only [setKey]
    by_cases h2k : k2 = k
    · subst h2k
      simp only [if_pos rfl, lookupKey]
      by_cases h : k1 = k2
      · subst h; simp
      · have h2 : ¬(k2 = k1) := fun hx => h hx.symm
        simp [h, h2]
    · simp only [if_neg h2k, lookupKey, ih]
      by_cases h1 : k2 = k1
      · subst h1
        simp [h2k]
      · simp [h1]

/-- The `if m[k] == nil { m[k] = make(...) }` idiom makes `k` present. -/
theorem lookupKey_ensure_self (l : AddrEntries) (k : String) :
    (lookupKey (if lookupKey l k = none then setKey l k [] else l) k).isSome := by
  by_cases h : lookupKey l k = none
  · simp [h, lookupKey_setKey]
  · simp [h, Option.isSome_iff_ne_none]

/-- The `if m[k] == nil { m[k] = make(...) }` idiom keeps every present key
present. -/
theorem lookupKey_ensure_mono (l : AddrEntries) (k k1 : String)
    (h : (lookupKey l k1).isSome) :
    (lookupKey (if lookupKey l k = none then setKey l k [] else l) k1).isSome := by
  by_cases hk : lookupKey l k = none
  · rw [if_pos hk, lookupKey_setKey]
    by_cases h1 : k1 = k
    · simp [h1]
    · simp [h1, h]
  · rw [if_neg hk]; exact h

/-- Normalization installs all three record-type keys. -/
theorem normalizeBundle_keys_present (m : AddrMap) :
    (lookupKey (normalizeBundle m) "A").isSome ∧
      (lookupKey (normalizeBundle m) "AAAA").isSome ∧
      (lookupKey (normalizeBundle m) "TXT").isSome := by
  unfold normalizeBundle
  refine ⟨?_, ?_, ?_⟩
  · exact lookupKey_ensure_mono _ _ _ (lookupKey_ensure_mono _ _ _ (lookupKey_ensure_self _ _))
  · exact lookupKey_ensure_mono _ _ _ (lookupKey_ensure_self _ _)
  · exact lookupKey_ensure_self _ _

/-- A successful probe of the registry yields a normalized bundle, which has
all three keys. -/
theorem probeKinds_keys_present (indexKeys : List Str) (resources : List LookupFunc)
    (b : AddrEntries) (h : probeKinds indexKeys resources = some b) :
    (lookupKey b "A").isSome ∧ (lookupKey b "AAAA").isSome ∧ (lookupKey b "TXT").isSome := by
  induction resources with
  | nil => exact absurd h (by simp [probeKinds])
  | cons r rest ih =>
    rw [probeKinds] at h
    by_cases hb : bundleNonEmpty (normalizeBundle (r indexKeys))
    · rw [if_pos hb] at h
      obtain rfl : normalizeBundle (r indexKeys) = b := by
        simpa using h
      exact normalizeBundle_keys_present _
    · rw [if_neg hb] at h
      exact ih h

/-- C6 (amended): when `getMatchingAddresses` finds a match, the bundle it
returns is normalized and carries all three keys `A`, `AAAA`, `TXT` with
possibly-empty lists; but — contrary to the claim as stated — the no-op
lookup returns a nil bundle, per-kind closures may return bundles with
absent keys, and `getMatchingAddresses` itself returns a nil bundle when
every probe is empty, so callers observe empty lists only through Go's
nil-map read semantics. -/
theorem c6_matched_bundle_keys_present (resources : List LookupFunc)
    (keySets : List (List Str)) (b : AddrEntries)
    (h : getMatchingAddresses resources keySets = some b) :
    (lookupKey b "A").isSome ∧ (lookupKey b "AAAA").isSome ∧ (lookupKey b "TXT").isSome := by
  induction keySets with
  | nil => exact absurd h (by simp [getMatchingAddresses])
  | cons ks rest ih =>
    rw [getMatchingAddresses] at h
    cases hp : probeKinds ks resources with
    | none => rw [hp] at h; exact ih h
    | some b2 =>
      rw [hp] at h
      obtain rfl : b2 = b := by simpa using h
      exact probeKinds_keys_present ks resources _ hp

/-- C6 witness: the amended theorem applied to a one-kind registry whose
lookup answers with a single A record. -/
theorem c6_witness :
    (lookupKey [("A", [str "192.0.2.7"]), ("AAAA", []), ("TXT", [])] "A").isSome ∧
      (lookupKey [("A", [str "192.0.2.7"]), ("AAAA", []), ("TXT", [])] "AAAA").isSome ∧
      (lookupKey [("A", [str "192.0.2.7"]), ("AAAA", []), ("TXT", [])] "TXT").isSome :=
  c6_matched_bundle_keys_present [fun _ => some [("A", [str "192.0.2.7"])]]
    [[str "svc.ns1.example.com"]] [("A", [str "192.0.2.7"]), ("AAAA", []), ("TXT", [])]
    (by decide)

/-- C6 counterexample: the no-op lookup installed for disabled kinds returns
a nil bundle, and `getMatchingAddresses` over it returns a nil bundle as
well — refuting the claim that every returned bundle has the three keys
present and is never nil. -/
theorem c6_counterexample :
    noop [str "example.com"] = none ∧
      getMatchingAddresses [noop] [[str "example.com"]] = none :=
  ⟨rfl, rfl⟩

/-- The registry probe of one key set is the first non-empty normalized
bundle among the kinds' results, in registry order. -/
theorem probeKinds_eq_find (indexKeys : List Str) (resources : List LookupFunc) :
    probeKinds indexKeys resources =
      (resources.map fun r => normalizeBundle (r indexKeys)).find? bundleNonEmpty := by
  induction resources with
  | nil => rfl
  | cons r rest ih =>
    rw [probeKinds, List.map_cons, List.find?_cons]
    by_cases hb : bundleNonEmpty (normalizeBundle (r indexKeys))
    · simp [hb]
    · simp [hb, ih]

/-- C3: `getMatchingAddresses` equals the first transfer function the
specification describes — over the flattened probe sequence (key sets in
order, resource kinds in registry order within each), it returns exactly
the first normalized bundle with a non-empty `A`, `AAAA` or `TXT` list and
`nil` when there is none; no merging across kinds or key sets can occur
since the result is literally one probe's bundle. -/
theorem c3_probe_order_first_nonempty (resources : List LookupFunc)
    (keySets : List (List Str)) :
    getMatchingAddresses resources keySets =
      (specProbeSequence resources keySets).find? bundleNonEmpty := by
  induction keySets with
  | nil => rfl
  | cons ks rest ih =>
    rw [getMatchingAddresses, specProbeSequence]
    rw [List.flatMap_cons, List.find?_append]
    rw [probeKinds_eq_find]
    cases hf : (resources.map fun r => normalizeBundle (r ks)).find? bundleNonEmpty with
    | some b => simp [hf]
    | none => simp [hf, ih, specProbeSequence]

/-- C7 (amended): for a LoadBalancer Service the index keys are: the
lowercased `coredns.io/hostname` annotation when present and valid, and the
empty key list when it is present but invalid — the fallback chain does
NOT apply then; only when that annotation is absent, the comma-split,
space-stripped, individually validated entries of the external-dns
annotation; and only when both annotations are absent, the single key
`"<name>.<namespace>"`. -/
theorem c7_hostname_index_keys (service : KService)
    (hlb : service.svcType = str "LoadBalancer") :
    (∀ v, service.annotations.lookup hostnameAnnotKey = some v →
      serviceHostnameIndexFunc service =
        (if checkDomainValid (goToLower v) then [goToLower v] else [])) ∧
    (service.annotations.lookup hostnameAnnotKey = none →
      (∀ v, service.annotations.lookup externalDnsHostnameAnnotKey = some v →
        serviceHostnameIndexFunc service =
          (splitHostnameAnnot (goToLower v)).filter checkDomainValid) ∧
      (service.annotations.lookup externalDnsHostnameAnnotKey = none →
        serviceHostnameIndexFunc service = [service.name ++ str "." ++ service.nspace])) := by
  refine ⟨fun v hv => ?_, fun hn => ⟨fun v hv => ?_, fun hn2 => ?_⟩⟩
  · simp [serviceHostnameIndexFunc, hlb, checkServiceAnnot, hv]
  · simp [serviceHostnameIndexFunc, hlb, checkServiceAnnot, hn, hv]
  · simp [serviceHostnameIndexFunc, hlb, checkServiceAnnot, hn, hn2]

/-- C7 witness: the amended theorem applied to a LoadBalancer Service with
no annotations: the fallback key is `name.namespace`. -/
theorem c7_witness :
    serviceHostnameIndexFunc
        { name := str "svc2", nspace := str "ns1", svcType := str "LoadBalancer",
          annotations := [], externalIPs := [], lbIngress := [] } =
      [str "svc2" ++ str "." ++ str "ns1"] :=
  ((c7_hostname_index_keys
      { name := str "svc2", nspace := str "ns1", svcType := str "LoadBalancer",
        annotations := [], externalIPs := [], lbIngress := [] } rfl).2 rfl).2 rfl

/-- C7 counterexample: a LoadBalancer Service whose `coredns.io/hostname`
annotation is present but invalid (`bad_host` fails RFC 1123) indexes no
hostnames at all; the fallback chain does not run, refuting the claim that
`"<name>.<namespace>"` would still apply. -/
theorem c7_counterexample :
    serviceHostnameIndexFunc
        { name := str "svc", nspace := str "ns1", svcType := str "LoadBalancer",
          annotations := [(str "coredns.io/hostname", str "bad_host")],
          externalIPs := [], lbIngress := [] } = [] ∧
      checkDomainValid (goToLower (str "bad_host")) = false ∧
      serviceHostnameIndexFunc
          { name := str "svc", nspace := str "ns1", svcType := str "LoadBalancer",
            annotations := [(str "coredns.io/hostname", str "bad_host")],
            externalIPs := [], lbIngress := [] } ≠
        [str "svc" ++ str "." ++ str "ns1"] := by
  refine ⟨by decide, by decide, by decide⟩

/-- C9: for every AAAA query inside a configured zone (synced, not diverted
to the sub-apex responder) whose resolved bundle has an empty AAAA list but
a non-empty A list, the reply has rcode NOERROR — the off-apex NXDOMAIN is
overwritten per RFC 4074 §3 — and the authority section carries the zone
SOA; this holds at the apex (`isRoot = true`) and off it. -/
theorem c9_aaaa_noerror_with_a (gw : GatewayCfg) (qname z zone : Str) (isRoot : Bool)
    (m : AddrMap)
    (hz : zonesMatches gw.zones qname = z) (hznil : ¬ z = [])
    (hzone : zone = qname.drop (qname.length - z.length))
    (hsync : gw.hasSynced = true)
    (hroot : rootOrSubApex gw.apex qname gw.zones = some isRoot)
    (hm : getMatchingAddresses gw.resources (getQueryIndexKeySets qname zone) = m)
    (hAAAA : mGet m "AAAA" = []) (hA : ¬ mGet m "A" = []) :
    serveDNS gw qname QType.aaaa =
      .reply { rcode := rcodeSuccess, answer := [], ns := [mkSOA gw zone], extra := [],
               authoritative := true } := by
  subst hzone
  simp only [serveDNS, hz, if_neg hznil, hsync, hroot, hm]
  rw [if_neg (by simp), if_neg (fun hcon => hA hcon.1)]
  simp only [buildMsg, hAAAA, if_pos rfl]
  simp [hA]

/-- A concrete gateway used to witness C9: one zone, one resource kind whose
lookup answers with an A record and nothing else, synced, no fallthrough. -/
def c9Gateway : GatewayCfg :=
  { zones := [str "example.com."],
    resources := [fun _ => some [("A", [str "192.0.2.1"])]],
    apex := str "dns1.kube-system", hostmaster := str "hostmaster",
    ttlLow := 60, ttlSOA := 60, hasSynced := true,
    fallThrough := fun _ => false, nameservers := [], externalAddr := [] }

/-- The bundle `c9Gateway`'s registry resolves for every query. -/
def c9Bundle : AddrMap :=
  some [("A", [str "192.0.2.1"]), ("AAAA", []), ("TXT", [])]

/-- C9 witness: the theorem applied at a non-apex name and at the apex of
`example.com.`; both AAAA replies are NOERROR with the SOA in the
authority section. -/
theorem c9_witness :
    serveDNS c9Gateway (str "svc.ns1.example.com.") QType.aaaa =
        .reply { rcode := rcodeSuccess, answer := [],
                 ns := [mkSOA c9Gateway (str "example.com.")], extra := [],
                 authoritative := true } ∧
      serveDNS c9Gateway (str "example.com.") QType.aaaa =
        .reply { rcode := rcodeSuccess, answer := [],
                 ns := [mkSOA c9Gateway (str "example.com.")], extra := [],
                 authoritative := true } :=
  ⟨c9_aaaa_noerror_with_a c9Gateway (str "svc.ns1.example.com.") (str "example.com.")
      (str "example.com.") false c9Bundle (by decide) (by decide) (by decide) rfl
      (by decide) (by decide) (by decide) (by decide),
    c9_aaaa_noerror_with_a c9Gateway (str "example.com.") (str "example.com.")
      (str "example.com.") true c9Bundle (by decide) (by decide) (by decide) rfl
      (by decide) (by decide) (by decide) (by decide)⟩

/-- C10: in the Service lookup's object loop, a Service with non-empty
`spec.externalIPs` ends the loop: the accumulated result is extended with
the classified external IPs and returned immediately, so the objects after
it — whatever their external IPs or load-balancer status — can never
influence the result (first conjunct), and when such a Service is reached
the return value is exactly the classification of its external IPs into
`A`/`AAAA` on top of the accumulated result, its own status field ignored
(second conjunct). -/
theorem c10_externalips_short_circuit (parseAddr : ParseAddr) (lookupIP : LookupIP)
    (result : AddrEntries) (pre post1 post2 : List KService) (svc : KService)
    (h : svc.externalIPs ≠ []) :
    processServices parseAddr lookupIP result (pre ++ svc :: post1) =
        processServices parseAddr lookupIP result (pre ++ svc :: post2) ∧
      processServices parseAddr lookupIP result (svc :: post1) =
        some (classifyAll parseAddr result svc.externalIPs) := by
  constructor
  · induction pre generalizing result with
    | nil => simp [processServices, h]
    | cons s rest ih =>
      simp only [List.cons_append, processServices]
      by_cases hs : s.externalIPs ≠ []
      · simp [hs]
      · rw [if_neg hs, if_neg hs]
        exact ih _
  · simp [processServices, h]

/-- The concrete address parser used to witness C10: it recognizes the two
IPv4 strings the scenario uses. -/
def c10Parse : ParseAddr := fun s =>
  if s = str "192.0.2.10" then some { is4 := true, is6 := false, canonical := s }
  else if s = str "192.0.2.20" then some { is4 := true, is6 := false, canonical := s }
  else none

/-- The Services used to witness C10: one without external IPs but with a
load-balancer IP, one with an external IP, and a later one with both. -/
def c10Pre : KService :=
  { name := str "pre", nspace := str "ns", svcType := str "LoadBalancer",
    annotations := [], externalIPs := [], lbIngress := [{ hostname := [], ip := str "192.0.2.10" }] }

/-- The terminating Service of the C10 scenario. -/
def c10Svc : KService :=
  { name := str "svc", nspace := str "ns", svcType := str "LoadBalancer",
    annotations := [], externalIPs := [str "192.0.2.20"], lbIngress := [] }

/-- A Service after the terminating one in the C10 scenario. -/
def c10Post : KService :=
  { name := str "post", nspace := str "ns", svcType := str "LoadBalancer",
    annotations := [], externalIPs := [str "192.0.2.10"],
    lbIngress := [{ hostname := [], ip := str "192.0.2.10" }] }

/-- C10 witness: the theorem applied to the concrete scenario — dropping the
trailing Service entirely does not change the lookup result, and at the
head position the external IP is classified and returned at once. -/
theorem c10_witness :
    processServices c10Parse (fun _ => none) [] ([c10Pre] ++ c10Svc :: [c10Post]) =
        processServices c10Parse (fun _ => none) [] ([c10Pre] ++ c10Svc :: []) ∧
      processServices c10Parse (fun _ => none) [] (c10Svc :: [c10Post]) =
        some (classifyAll c10Parse [] c10Svc.externalIPs) :=
  c10_externalips_short_circuit c10Parse (fun _ => none) [] [c10Pre] [c10Post] []
    c10Svc (by decide)
